import Mathlib

/-!
Verification of the MCP logging server (`src/index.ts`).

The server exposes two operations over an MCP transport:
`write-log` appends one formatted line `[<timestamp>] [<level>] <message>`
to a log file resolved against a fixed base directory, mirroring the entry
to a remote Graylog collector in a deferred, fire-and-forget fashion, and
`read-logs` reads a file, splits it into lines, discards blank lines,
filters by textual containment of `[<level>]`, takes the last `maxEntries`
lines, and strips ANSI color codes from the result.

JavaScript strings are embedded as `List Char` so that the string
operations used by the source (`split("\n")`, `trim`, `includes`,
`slice(-n)`, a regex replace of ANSI codes) can be given exact executable
definitions and reasoned about by induction.  JavaScript numbers reaching
the code under scrutiny (`maxEntries`) are embedded as `ℚ`, which is exact
for every value the code's comparisons and truncations observe.  File
system state is a map from resolved paths (segment lists) to file
contents; `fs.appendFileSync` failures are modelled by an explicit
`Option` oracle since the embedding cannot produce real I/O errors.
`new Date().toISOString()` is modelled by an explicit `now` parameter
documented to be the current time in ISO-8601 form.  The `debugLog`
diagnostic trail (console and debug file) has no observable effect on any
operation result and is abstracted away.
-/

set_option autoImplicit false

namespace McpLogging

/-- JavaScript strings, embedded as lists of characters. -/
abbrev Str := List Char

/-- Coerce a Lean string literal into the embedding's string type. -/
def str (s : String) : Str := s.toList

/-- Whitespace recognised by `String.prototype.trim` (ASCII subset; the
source never manipulates non-ASCII whitespace). -/
def isWs (c : Char) : Bool :=
  c = ' ' || c = '\t' || c = '\n' || c = '\r' || c = '\x0b' || c = '\x0c'

/-- `s.trim()`: remove leading and trailing whitespace. -/
def trimJs (l : Str) : Str :=
  (((l.dropWhile isWs).reverse).dropWhile isWs).reverse

/-- `content.split("\n")`: split at every newline; `n + 1` components for
`n` newlines, empty components preserved. -/
def splitOnNl : Str → List Str
  | [] => [[]]
  | c :: rest =>
    if c = '\n' then [] :: splitOnNl rest
    else
      match splitOnNl rest with
      | [] => [[c]]
      | l :: ls => (c :: l) :: ls

/-- The non-blank lines of a file:
`content.split("\n").filter((line) => line.trim() !== "")`. -/
def logLines (content : Str) : List Str :=
  (splitOnNl content).filter (fun l => trimJs l ≠ [])

/-- Concatenation of newline-terminated lines; the shape of any file
produced purely by this server's appends. -/
def joinLinesNl (lines : List Str) : Str :=
  (lines.map (fun l => l ++ ['\n'])).flatten

/-- `hay.includes(needle)`: substring containment, as used by the level
filter `line.includes(`[${level}]`)`. -/
def includesJs (needle : Str) : Str → Bool
  | [] => needle.isPrefixOf []
  | c :: rest => needle.isPrefixOf (c :: rest) || includesJs needle rest

/-- Longest digit run at the head of a string, with the remainder. -/
def spanDigits : Str → Str × Str
  | [] => ([], [])
  | c :: r =>
    if c.isDigit then
      let p := spanDigits r
      (c :: p.1, p.2)
    else ([], c :: r)

/-- Fuel-driven worker for `stripAnsiCodes`; the fuel only makes the
recursion structural (every step consumes at least one character, so fuel
`l.length` is never exhausted). -/
def stripGo : Nat → Str → Str
  | 0, l => l
  | _ + 1, [] => []
  | fuel + 1, c :: rest =>
    if c = '\x1b' then
      match rest with
      | '[' :: r2 =>
        match spanDigits r2 with
        | (_ :: _, m :: r3) =>
          if m = 'm' then stripGo fuel r3 else c :: stripGo fuel rest
        | _ => c :: stripGo fuel rest
      | _ => c :: stripGo fuel rest
    else c :: stripGo fuel rest

/-- `str.replace(/\u001b\[\d+m/g, '')`: delete every ANSI color escape
(ESC, `[`, one or more digits, `m`); the source's `stripAnsiCodes`. -/
def stripAnsiCodes (l : Str) : Str := stripGo l.length l

/-- `arr.slice(-q)` for a positive JS number `q` (ECMAScript
`ToIntegerOrInfinity` truncates toward zero, so `0 < q < 1` yields
`slice(0)`, the whole array, while `q ≥ 1` yields the last `⌊q⌋`
elements, clamped at the array's length). -/
def sliceLastJs {α : Type} (q : ℚ) (l : List α) : List α :=
  if q < 1 then l else l.drop (l.length - (⌊q⌋).toNat)

/-- The four log levels of the `LogLevel` enum. -/
inductive LogLevel where
  | INFO
  | WARN
  | ERROR
  | DEBUG
deriving DecidableEq, Repr

/-- The string value of a `LogLevel` enum member. -/
def LogLevel.toStr : LogLevel → Str
  | .INFO => str "INFO"
  | .WARN => str "WARN"
  | .ERROR => str "ERROR"
  | .DEBUG => str "DEBUG"

/-- `logLevelMapping`: the Winston level name used when mirroring. -/
def logLevelMapping : LogLevel → Str
  | .INFO => str "info"
  | .WARN => str "warn"
  | .ERROR => str "error"
  | .DEBUG => str "debug"

/-- The template literal `` `[${level}]` `` used by the level filter. -/
def levelTag (lvl : LogLevel) : Str :=
  '[' :: lvl.toStr ++ [']']

/-- The formatted log line `` `[${logTimestamp}] [${level}] ${message}` ``
(without the trailing newline that the append adds). -/
def fmtEntry (ts : Str) (lvl : LogLevel) (msg : Str) : Str :=
  ('[' :: ts) ++ (str "] [" ++ (lvl.toStr ++ (str "] " ++ msg)))

/-- `level ? logLines.filter((line) => line.includes(`[${level}]`)) : logLines`. -/
def filterLevel (lvl : Option LogLevel) (lines : List Str) : List Str :=
  match lvl with
  | none => lines
  | some l => lines.filter (fun line => includesJs (levelTag l) line)

example : splitOnNl (str "a\nb\n") = [str "a", str "b", []] := by decide
example : logLines (str "a\n \nb") = [str "a", str "b"] := by decide
example : trimJs (str "  x ") = str "x" := by decide
example : stripAnsiCodes (str "\x1b[31mred\x1b[0m!") = str "red!" := by decide
example : stripAnsiCodes (str "\x1b[mkeep") = str "\x1b[mkeep" := by decide
example : sliceLastJs (mkRat 5 2) [1, 2, 3, 4] = [3, 4] := by decide
example : sliceLastJs (mkRat 1 2) [1, 2, 3, 4] = [1, 2, 3, 4] := by decide
example : sliceLastJs (10 : ℚ) [1, 2, 3] = [1, 2, 3] := by decide
example : fmtEntry (str "T") .INFO (str "hi") = str "[T] [INFO] hi" := by decide
example : includesJs (str "[ERROR]") (str "x [ERROR] y") = true := by decide
example : includesJs (str "[ERROR]") (str "x [INFO] y") = false := by decide

/-! ### Paths and the file system

`path.resolve(LOG_DIR, logFile)` on the POSIX platform the server targets:
if `logFile` is absolute the base directory is ignored, otherwise the two
are joined; either way the result is normalized (`.` dropped, `..` popping
one segment, at the root staying at the root).  Resolved absolute paths
are represented by their segment lists. -/

/-- A caller-supplied name is absolute when it starts with `/`. -/
def isAbsoluteName (p : Str) : Bool :=
  match p with
  | '/' :: _ => true
  | _ => false

/-- `content.split("/")` (same splitting scheme as `splitOnNl`). -/
def splitOnSlash : Str → List Str
  | [] => [[]]
  | c :: rest =>
    if c = '/' then [] :: splitOnSlash rest
    else
      match splitOnSlash rest with
      | [] => [[c]]
      | l :: ls => (c :: l) :: ls

/-- Split a path string at `/`, discarding empty segments. -/
def pathSegments (p : Str) : List Str :=
  (splitOnSlash p).filter (fun s => s ≠ [])

/-- Normalization pass of `path.resolve`: `.` is dropped, `..` pops the
previous segment (staying put at the root). -/
def normalizeSegments (segs : List Str) : List Str :=
  segs.foldl
    (fun acc s =>
      if s = str "." then acc
      else if s = str ".." then acc.dropLast
      else acc ++ [s])
    []

/-- `path.resolve(base, p)` for an already-normalized absolute `base`. -/
def resolvePath (base : List Str) (p : Str) : List Str :=
  if isAbsoluteName p then normalizeSegments (pathSegments p)
  else normalizeSegments (base ++ pathSegments p)

/-- `LOG_DIR = path.resolve(__dirname, "../logs")`: the fixed base log
directory, abstracted to a representative absolute install location. -/
def LOG_DIR : List Str := [str "srv", str "mcp-logging", str "logs"]

/-- `DEFAULT_LOG_FILE = path.join(LOG_DIR, "application.log")`. -/
def DEFAULT_LOG_FILE : List Str := LOG_DIR ++ [str "application.log"]

/-- `logFile ? path.resolve(LOG_DIR, logFile) : DEFAULT_LOG_FILE`, the
resolution rule shared verbatim by `writeLogEntry` and `readLogEntries`. -/
def logFilePathOf (logFile : Option Str) : List Str :=
  match logFile with
  | some f => resolvePath LOG_DIR f
  | none => DEFAULT_LOG_FILE

/-- Render a resolved path the way Node would print it (for the
`Log file not found: ${logFilePath}` message). -/
def pathToStr (segs : List Str) : Str :=
  segs.foldl (fun acc s => acc ++ '/' :: s) []

/-- The local file system: contents of each absolute path, `none` when
the file does not exist (`fs.existsSync` is false). -/
def Fs : Type := List Str → Option Str

/-- The file system with no log files. -/
def fsEmpty : Fs := fun _ => none

/-- Overwrite one file's contents. -/
def fsSet (fs : Fs) (p : List Str) (c : Str) : Fs :=
  fun q => if q = p then some c else fs q

/-! ### The write path -/

/-- The result object of `writeLogEntry`:
`{ success: boolean; error?: string; graylogSuccess?: boolean }`. -/
structure WriteResult where
  success : Bool
  error : Option Str
  graylogSuccess : Option Bool
deriving DecidableEq, Repr

/-- A mirroring request handed to `remoteLogger.log` by the deferred
(`setTimeout`/`setImmediate`) block: the Winston level and the message
(static metadata omitted; it never influences any result). -/
structure RemoteCall where
  level : Str
  message : Str
deriving DecidableEq, Repr

/-- What actually happens at the collector once a deferred mirror call
runs: delivery, an error reported to the callback, or a synchronous
throw out of `remoteLogger.log`. -/
inductive RemoteOutcome where
  | delivered
  | failed (e : Str)
  | threw (e : Str)
deriving DecidableEq, Repr

/-- Running one deferred mirror call.  The code absorbs every outcome:
the `setTimeout` callback only passes errors to `debugLog`, and the
handler's `setImmediate` block wraps the call in `try { … } catch (e) {}`;
nothing propagates, which is why the result is `Except.ok` in every
case (`Except.error` would model an exception escaping the block). -/
def runDeferredRemote (o : RemoteOutcome) (_c : RemoteCall) : Except Str Unit :=
  match o with
  | .delivered => .ok ()
  | .failed _ => .ok ()
  | .threw _ => .ok ()

/-- `timestamp || new Date().toISOString()`: JavaScript `||` also treats
the empty string as absent. -/
def resolvedTimestamp (ts : Option Str) (now : Str) : Str :=
  match ts with
  | some t => if t = [] then now else t
  | none => now

/-- `writeLogEntry(level, message, timestamp?, logFile?)` from
`src/index.ts`: append the formatted line to the resolved file (created
if absent) and queue a non-awaited mirror call; on an append failure
(`ioFail = some e`, the thrown error's message) return the error result.
Returns the result object, the new file system, and the queued deferred
mirror calls. -/
def writeLogEntry (level : LogLevel) (message : Str) (timestamp : Option Str)
    (logFile : Option Str) (now : Str) (ioFail : Option Str) (fs : Fs) :
    WriteResult × Fs × List RemoteCall :=
  let logTimestamp := resolvedTimestamp timestamp now
  let logFilePath := logFilePathOf logFile
  match ioFail with
  | some e =>
    (⟨false, some e, some false⟩, fs, [])
  | none =>
    let logEntry := fmtEntry logTimestamp level message ++ ['\n']
    let fs2 := fsSet fs logFilePath ((fs logFilePath).getD [] ++ logEntry)
    (⟨true, none, some true⟩, fs2,
     [⟨logLevelMapping level, message⟩])

/-- The whole write path including the later execution of the deferred
mirror calls under outcome `o`; the third component is the (absorbed)
result of each deferred call.  The `WriteResult` is returned before any
deferred call runs, so `o` cannot reach it. -/
def writeThenRemote (level : LogLevel) (message : Str) (timestamp : Option Str)
    (logFile : Option Str) (now : Str) (ioFail : Option Str) (fs : Fs)
    (o : RemoteOutcome) :
    WriteResult × Fs × List (Except Str Unit) :=
  let r := writeLogEntry level message timestamp logFile now ioFail fs
  (r.1, r.2.1, r.2.2.map (runDeferredRemote o))

/-- `N` successive successful writes (level, message, explicit timestamp),
each through `writeLogEntry` with the default log file. -/
def writeMany (ws : List (LogLevel × Str × Str)) (fs : Fs) : Fs :=
  ws.foldl
    (fun f w => (writeLogEntry w.1 w.2.1 (some w.2.2) none [] none f).2.1)
    fs

/-! ### The read path -/

/-- The result object of `readLogEntries`:
`{ entries: string[]; success: boolean; error?: string }`. -/
structure ReadResult where
  entries : List Str
  success : Bool
  error : Option Str
deriving DecidableEq, Repr

/-- `readLogEntries(maxEntries, level?, logFile?)` from `src/index.ts`:
missing file reports `success=false` with a not-found error; otherwise
split into lines, drop blank lines, filter by `[<level>]` containment,
keep `slice(-maxEntries)`, and strip ANSI color codes from each entry. -/
def readLogEntries (fs : Fs) (maxEntries : ℚ) (level : Option LogLevel)
    (logFile : Option Str) : ReadResult :=
  let logFilePath := logFilePathOf logFile
  match fs logFilePath with
  | none =>
    ⟨[], false, some (str "Log file not found: " ++ pathToStr logFilePath)⟩
  | some fileContent =>
    let filteredLines := filterLevel level (logLines fileContent)
    let recentEntries := sliceLastJs maxEntries filteredLines
    let cleanEntries := recentEntries.map stripAnsiCodes
    ⟨cleanEntries, true, none⟩

example :
    readLogEntries (fsSet fsEmpty DEFAULT_LOG_FILE (str "[T] [INFO] a\n[U] [WARN] b\n"))
      (10 : ℚ) (some .WARN) none
      = ⟨[str "[U] [WARN] b"], true, none⟩ := by decide

example :
    readLogEntries fsEmpty (10 : ℚ) none none
      = ⟨[], false, some (str "Log file not found: /srv/mcp-logging/logs/application.log")⟩ := by
  decide

/-! ### Argument validation (the Zod schemas) and the tool handlers -/

deriving instance DecidableEq for Except

/-- One Zod validation issue: a field path and a message (issue messages
are abbreviated to stable constants; only their association with the
offending field is relevant to the spec). -/
structure ZodIssue where
  path : Str
  message : Str
deriving DecidableEq, Repr

/-- Decode a `LogLevel` enum string, as `z.nativeEnum(LogLevel)` does. -/
def decodeLevel (s : Str) : Option LogLevel :=
  if s = str "INFO" then some .INFO
  else if s = str "WARN" then some .WARN
  else if s = str "ERROR" then some .ERROR
  else if s = str "DEBUG" then some .DEBUG
  else none

/-- Raw `write-log` arguments before validation (a field is `none` when
absent from the request). -/
structure RawWriteArgs where
  level : Option Str
  message : Option Str
  timestamp : Option Str
  logFile : Option Str

/-- Validated `write-log` arguments. -/
structure WriteArgs where
  level : LogLevel
  message : Str
  timestamp : Option Str
  logFile : Option Str
deriving DecidableEq, Repr

/-- `WriteLogArgumentsSchema.parse`: `level` defaults to `INFO`,
`message` must be present with length at least 1, `timestamp` and
`logFile` are optional strings; all issues are collected in schema key
order. -/
def parseWriteLogArguments (a : RawWriteArgs) : Except (List ZodIssue) WriteArgs :=
  let lvIssues : List ZodIssue :=
    match a.level with
    | none => []
    | some s =>
      if (decodeLevel s).isSome then []
      else [⟨str "level", str "Invalid enum value"⟩]
  let msgIssues : List ZodIssue :=
    match a.message with
    | none => [⟨str "message", str "Required"⟩]
    | some m =>
      if m = [] then
        [⟨str "message", str "String must contain at least 1 character(s)"⟩]
      else []
  if lvIssues ++ msgIssues = [] then
    .ok ⟨((a.level).bind decodeLevel).getD LogLevel.INFO,
         (a.message).getD [], a.timestamp, a.logFile⟩
  else .error (lvIssues ++ msgIssues)

/-- Raw `read-logs` arguments before validation. -/
structure RawReadArgs where
  logFile : Option Str
  maxEntries : Option ℚ
  level : Option Str

/-- Validated `read-logs` arguments. -/
structure ReadArgs where
  logFile : Option Str
  maxEntries : ℚ
  level : Option LogLevel
deriving DecidableEq, Repr

/-- `ReadLogsArgumentsSchema.parse`: `maxEntries` must satisfy
`z.number().positive()` (strictly greater than 0 — nothing requires it to
be an integer) and defaults to 10; `level` must be a `LogLevel` member
when present; `logFile` is an optional string. -/
def parseReadLogsArguments (a : RawReadArgs) : Except (List ZodIssue) ReadArgs :=
  let meIssues : List ZodIssue :=
    match a.maxEntries with
    | none => []
    | some q =>
      if 0 < q then []
      else [⟨str "maxEntries", str "Number must be greater than 0"⟩]
  let lvIssues : List ZodIssue :=
    match a.level with
    | none => []
    | some s =>
      if (decodeLevel s).isSome then []
      else [⟨str "level", str "Invalid enum value"⟩]
  if meIssues ++ lvIssues = [] then
    .ok ⟨a.logFile, (a.maxEntries).getD 10, (a.level).bind decodeLevel⟩
  else .error (meIssues ++ lvIssues)

/-- `arr.join(sep)`. -/
def joinSep (sep : Str) : List Str → Str
  | [] => []
  | [x] => x
  | x :: xs => x ++ sep ++ joinSep sep xs

/-- The `Invalid arguments:` detail string thrown by the handler's
`ZodError` catch: `` `${e.path.join(".")}: ${e.message}` `` joined by
`", "`. -/
def renderIssues (issues : List ZodIssue) : Str :=
  joinSep (str ", ") (issues.map (fun i => i.path ++ str ": " ++ i.message))

/-- The `write-log` branch of the `CallToolRequestSchema` handler:
validation failures are rethrown (`Except.error`) before any execution;
otherwise the append runs and the handler answers with a text summary
(the handler inlines the same append-then-deferred-mirror logic as
`writeLogEntry`, which the embedding shares). -/
def handleWriteLog (a : RawWriteArgs) (now : Str) (ioFail : Option Str) (fs : Fs) :
    Except Str (Str × Fs × List RemoteCall) :=
  match parseWriteLogArguments a with
  | .error issues => .error (str "Invalid arguments: " ++ renderIssues issues)
  | .ok w =>
    let r := writeLogEntry w.level w.message w.timestamp w.logFile now ioFail fs
    if r.1.success then
      .ok (str "Successfully wrote log entry with level " ++ w.level.toStr ++ str ".",
           r.2.1, r.2.2)
    else
      .ok (str "Failed to write log entry: " ++ (r.1.error).getD [], r.2.1, r.2.2)

/-- The `read-logs` branch of the `CallToolRequestSchema` handler:
validation failures are rethrown before any file access; a missing file,
an empty filtered set, and a normal listing each produce their fixed
text shape. -/
def handleReadLogs (a : RawReadArgs) (fs : Fs) : Except Str Str :=
  match parseReadLogsArguments a with
  | .error issues => .error (str "Invalid arguments: " ++ renderIssues issues)
  | .ok rargs =>
    let logFilePath := logFilePathOf rargs.logFile
    match fs logFilePath with
    | none => .ok (str "Log file not found: " ++ pathToStr logFilePath)
    | some fileContent =>
      let recentEntries :=
        sliceLastJs rargs.maxEntries (filterLevel rargs.level (logLines fileContent))
      if recentEntries = [] then
        .ok (str "No log entries found matching criteria")
      else
        .ok (str "Recent log entries:\n\n" ++
             joinSep ['\n'] (recentEntries.map stripAnsiCodes))

/-! ### Vocabulary taken from the spec's words (for claims that compare
the code against the spec's description) -/

/-- Everything before the first `]`, with the remainder after it. -/
def splitAtRB : Str → Option (Str × Str)
  | [] => none
  | c :: r =>
    if c = ']' then some ([], r)
    else (splitAtRB r).map (fun p => (c :: p.1, p.2))

/-- The level field of a formatted line in the spec's sense: the second
bracketed field of `[<timestamp>] [<level>] <message>`. -/
def levelField (l : Str) : Option Str :=
  match l with
  | '[' :: r =>
    match splitAtRB r with
    | some (_, ' ' :: '[' :: r2) => (splitAtRB r2).map (fun p => p.1)
    | _ => none
  | _ => none

/-- The read pipeline exactly as the spec's sentence describes it: split
into lines, discard blank lines, keep lines containing `[<level>]` when a
level is given, then take the last `maxEntries` lines in original order —
with no further transformation of the surviving lines. -/
def specReadPipeline (content : Str) (maxEntries : ℚ) (level : Option LogLevel) :
    List Str :=
  sliceLastJs maxEntries (filterLevel level (logLines content))

example : levelField (str "[T] [INFO] x [ERROR] y") = some (str "INFO") := by decide

/-! ### Lemmas about the string machinery -/

theorem splitOnNl_ne_nil : ∀ l : Str, splitOnNl l ≠ [] := by
  intro l
  induction l with
  | nil => simp [splitOnNl]
  | cons c rest ih =>
    simp only [splitOnNl]
    split
    · simp
    · split
      · simp
      · simp

theorem splitOnNl_no_nl : ∀ l : Str, '\n' ∉ l → splitOnNl l = [l] := by
  intro l h
  induction l with
  | nil => rfl
  | cons c rest ih =>
    have hc : ¬ c = '\n' := fun hc => h (hc ▸ List.mem_cons_self c rest)
    have hr : '\n' ∉ rest := fun hm => h (List.mem_cons_of_mem c hm)
    simp only [splitOnNl, if_neg hc, ih hr]

theorem splitOnNl_append_nl : ∀ a b : Str, '\n' ∉ a →
    splitOnNl (a ++ '\n' :: b) = a :: splitOnNl b := by
  intro a
  induction a with
  | nil => intro b _; simp [splitOnNl]
  | cons c a2 ih =>
    intro b h
    have hc : ¬ c = '\n' := fun hc => h (hc ▸ List.mem_cons_self c a2)
    have ha : '\n' ∉ a2 := fun hm => h (List.mem_cons_of_mem c hm)
    simp only [List.cons_append, splitOnNl, if_neg hc]
    rw [show a2.append ('\n' :: b) = a2 ++ '\n' :: b from rfl, ih b ha]

theorem joinLinesNl_cons (l : Str) (ls : List Str) :
    joinLinesNl (l :: ls) = l ++ '\n' :: joinLinesNl ls := by
  simp [joinLinesNl]

theorem joinLinesNl_append (xs ys : List Str) :
    joinLinesNl (xs ++ ys) = joinLinesNl xs ++ joinLinesNl ys := by
  simp [joinLinesNl]

theorem splitOnNl_joinLinesNl : ∀ lines : List Str, (∀ l ∈ lines, '\n' ∉ l) →
    splitOnNl (joinLinesNl lines) = lines ++ [[]] := by
  intro lines h
  induction lines with
  | nil => rfl
  | cons l ls ih =>
    rw [joinLinesNl_cons, splitOnNl_append_nl l _ (h l (List.mem_cons_self l ls)),
        ih (fun x hx => h x (List.mem_cons_of_mem l hx))]
    rfl

theorem trimJs_cons_ne_nil {c : Char} (r : Str) (h : isWs c = false) :
    trimJs (c :: r) ≠ [] := by
  unfold trimJs
  rw [List.dropWhile_cons, h]
  simp only [Bool.false_eq_true, if_false]
  intro hnil
  rw [List.reverse_eq_nil_iff, List.dropWhile_eq_nil_iff] at hnil
  have hmem : c ∈ (c :: r).reverse := by
    rw [List.mem_reverse]; exact List.mem_cons_self c r
  have := hnil c hmem
  rw [h] at this
  exact Bool.false_ne_true this

theorem logLines_joinLinesNl (lines : List Str) (hnl : ∀ l ∈ lines, '\n' ∉ l)
    (hnb : ∀ l ∈ lines, trimJs l ≠ []) : logLines (joinLinesNl lines) = lines := by
  unfold logLines
  rw [splitOnNl_joinLinesNl lines hnl, List.filter_append]
  have h1 : List.filter (fun l => decide (trimJs l ≠ [])) [([] : Str)] = [] := by decide
  have h2 : List.filter (fun l => decide (trimJs l ≠ [])) lines = lines :=
    List.filter_eq_self.mpr (fun a ha => by simpa using hnb a ha)
  rw [h1, h2, List.append_nil]

theorem stripGo_no_esc : ∀ (fuel : Nat) (l : Str), '\x1b' ∉ l → stripGo fuel l = l := by
  intro fuel
  induction fuel with
  | zero => intro l _; rfl
  | succ n ih =>
    intro l h
    match l with
    | [] => rfl
    | c :: rest =>
      have hc : ¬ c = '\x1b' := fun hc => h (hc ▸ List.mem_cons_self c rest)
      have hr : '\x1b' ∉ rest := fun hm => h (List.mem_cons_of_mem c hm)
      simp only [stripGo, if_neg hc, ih rest hr]

theorem stripAnsiCodes_no_esc {l : Str} (h : '\x1b' ∉ l) : stripAnsiCodes l = l :=
  stripGo_no_esc l.length l h

theorem mem_sliceLastJs {α : Type} {x : α} {q : ℚ} {l : List α}
    (h : x ∈ sliceLastJs q l) : x ∈ l := by
  unfold sliceLastJs at h
  split at h
  · exact h
  · exact List.mem_of_mem_drop h

theorem sliceLastJs_natCast {α : Type} (k : ℕ) (hk : 1 ≤ k) (l : List α) :
    sliceLastJs (k : ℚ) l = l.drop (l.length - k) := by
  unfold sliceLastJs
  rw [if_neg (by exact_mod_cast Nat.not_lt.mpr hk)]
  rw [Int.floor_natCast, Int.toNat_natCast]

theorem str_close_open : str "] [" = [']', ' ', '['] := rfl

theorem str_close_sp : str "] " = [']', ' '] := rfl

theorem nl_not_mem_toStr (lvl : LogLevel) : '\n' ∉ lvl.toStr := by
  cases lvl <;> decide

theorem esc_not_mem_toStr (lvl : LogLevel) : '\x1b' ∉ lvl.toStr := by
  cases lvl <;> decide

theorem not_mem_append_of {c : Char} {a b : Str} (ha : c ∉ a) (hb : c ∉ b) :
    c ∉ a ++ b := by
  intro hm
  rcases List.mem_append.mp hm with h | h
  · exact ha h
  · exact hb h

theorem not_mem_cons_of {c d : Char} {a : Str} (hd : c ≠ d) (ha : c ∉ a) :
    c ∉ d :: a := by
  intro hm
  rcases List.mem_cons.mp hm with h | h
  · exact hd h
  · exact ha h

theorem nl_not_mem_fmtEntry {ts msg : Str} (lvl : LogLevel)
    (hts : '\n' ∉ ts) (hmsg : '\n' ∉ msg) : '\n' ∉ fmtEntry ts lvl msg :=
  not_mem_append_of (not_mem_cons_of (by decide) hts)
    (not_mem_append_of (by decide)
      (not_mem_append_of (nl_not_mem_toStr lvl)
        (not_mem_append_of (by decide) hmsg)))

theorem esc_not_mem_fmtEntry {ts msg : Str} (lvl : LogLevel)
    (hts : '\x1b' ∉ ts) (hmsg : '\x1b' ∉ msg) : '\x1b' ∉ fmtEntry ts lvl msg :=
  not_mem_append_of (not_mem_cons_of (by decide) hts)
    (not_mem_append_of (by decide)
      (not_mem_append_of (esc_not_mem_toStr lvl)
        (not_mem_append_of (by decide) hmsg)))

theorem trimJs_fmtEntry_ne_nil (ts : Str) (lvl : LogLevel) (msg : Str) :
    trimJs (fmtEntry ts lvl msg) ≠ [] := by
  unfold fmtEntry
  exact trimJs_cons_ne_nil _ (by decide)

theorem sliceLastJs_nil {α : Type} (q : ℚ) : sliceLastJs q ([] : List α) = [] := by
  unfold sliceLastJs
  split <;> simp

/-! ### Lemmas about repeated writes -/

/-- The formatted line an element of a `writeMany` batch produces. -/
def fmtOfWrite (w : LogLevel × Str × Str) : Str :=
  fmtEntry (resolvedTimestamp (some w.2.2) []) w.1 w.2.1

theorem writeMany_cons (w : LogLevel × Str × Str) (ws : List (LogLevel × Str × Str))
    (fs : Fs) :
    writeMany (w :: ws) fs
      = writeMany ws ((writeLogEntry w.1 w.2.1 (some w.2.2) none [] none fs).2.1) := rfl

theorem writeLogEntry_ok_fs (level : LogLevel) (msg : Str) (ts : Option Str)
    (logFile : Option Str) (now : Str) (fs : Fs) :
    (writeLogEntry level msg ts logFile now none fs).2.1 (logFilePathOf logFile)
      = some ((fs (logFilePathOf logFile)).getD []
          ++ (fmtEntry (resolvedTimestamp ts now) level msg ++ ['\n'])) := by
  simp [writeLogEntry, fsSet]

theorem writeMany_default_some :
    ∀ (ws : List (LogLevel × Str × Str)), ws ≠ [] →
    ∀ (fs : Fs) (lines : List Str),
      (fs DEFAULT_LOG_FILE).getD [] = joinLinesNl lines →
      (writeMany ws fs) DEFAULT_LOG_FILE
        = some (joinLinesNl (lines ++ ws.map fmtOfWrite)) := by
  intro ws
  induction ws with
  | nil => intro h; exact absurd rfl h
  | cons w ws ih =>
    intro _ fs lines hfs
    rw [writeMany_cons]
    have hstep : (writeLogEntry w.1 w.2.1 (some w.2.2) none [] none fs).2.1
        DEFAULT_LOG_FILE = some (joinLinesNl (lines ++ [fmtOfWrite w])) := by
      rw [show DEFAULT_LOG_FILE = logFilePathOf none from rfl, writeLogEntry_ok_fs]
      rw [show logFilePathOf none = DEFAULT_LOG_FILE from rfl, hfs]
      rw [joinLinesNl_append]
      simp [joinLinesNl, fmtOfWrite]
    by_cases hws : ws = []
    · subst hws
      rw [show writeMany [] ((writeLogEntry w.1 w.2.1 (some w.2.2) none [] none fs).2.1)
            = (writeLogEntry w.1 w.2.1 (some w.2.2) none [] none fs).2.1 from rfl, hstep]
      simp
    · rw [ih hws _ (lines ++ [fmtOfWrite w]) (by rw [hstep]; rfl)]
      simp
example :
    parseReadLogsArguments ⟨none, some (-1 : ℚ), some (str "BAD")⟩
      = .error [⟨str "maxEntries", str "Number must be greater than 0"⟩,
                ⟨str "level", str "Invalid enum value"⟩] := by decide
example :
    handleReadLogs ⟨none, some (-1 : ℚ), none⟩ fsEmpty
      = .error (str "Invalid arguments: maxEntries: Number must be greater than 0") := by
  decide

/-! ### Claim C1 -/

/-- Claim C1, as stated, is false on the code: the level filter is
`line.includes(`[${level}]`)`, whole-line substring containment, not a
match on the second bracketed field.  At this concrete file the single
line's level field is `INFO`, yet a read filtered by `ERROR` returns it,
because the message body contains the substring `[ERROR]`. -/
theorem claim1_counterexample :
    (readLogEntries
        (fsSet fsEmpty DEFAULT_LOG_FILE
          (str "[2025-01-01T00:00:00Z] [INFO] note [ERROR] boom\n"))
        (10 : ℚ) (some .ERROR) none).entries
      = [str "[2025-01-01T00:00:00Z] [INFO] note [ERROR] boom"] ∧
    levelField (str "[2025-01-01T00:00:00Z] [INFO] note [ERROR] boom")
      = some (str "INFO") ∧
    str "INFO" ≠ LogLevel.ERROR.toStr := by
  decide

/-- Claim C1 amended: with a `level` filter, an entry is returned only if
the raw file line contains the substring `[<level>]` *somewhere* in the
line (textual containment, not field-position matching); a line whose
message body contains `[<level>]` is therefore returned even when its
level field differs.  Every returned entry is the ANSI-stripped form of
some non-blank file line containing that substring. -/
theorem claim1_amended (fs : Fs) (q : ℚ) (L : LogLevel) (name : Option Str)
    (e : Str) (he : e ∈ (readLogEntries fs q (some L) name).entries) :
    ∃ content raw, fs (logFilePathOf name) = some content ∧
      raw ∈ logLines content ∧ includesJs (levelTag L) raw = true ∧
      e = stripAnsiCodes raw := by
  cases hf : fs (logFilePathOf name) with
  | none =>
    have he2 : e ∈ ([] : List Str) := by
      simp only [readLogEntries, hf] at he
      exact he
    exact absurd he2 (List.not_mem_nil e)
  | some content =>
    have he2 : e ∈ (sliceLastJs q
        ((logLines content).filter (fun line => includesJs (levelTag L) line))).map
          stripAnsiCodes := by
      simp only [readLogEntries, hf] at he
      exact he
    rcases List.mem_map.mp he2 with ⟨raw, hr, hmap⟩
    have h2 := mem_sliceLastJs hr
    rcases List.mem_filter.mp h2 with ⟨h3, h4⟩
    exact ⟨content, raw, rfl, h3, by simpa using h4, hmap.symm⟩

/-- Witness for C1: the amended theorem applies at a concrete one-line
file read back with a `WARN` filter (its membership hypothesis is
discharged by evaluation). -/
theorem claim1_witness :
    (readLogEntries (fsSet fsEmpty DEFAULT_LOG_FILE (str "[T] [WARN] w\n"))
        (10 : ℚ) (some .WARN) none).entries = [str "[T] [WARN] w"] := by
  have h := claim1_amended
    (fsSet fsEmpty DEFAULT_LOG_FILE (str "[T] [WARN] w\n")) (10 : ℚ) .WARN none
    (str "[T] [WARN] w") (by decide)
  rcases h with ⟨content, raw, hcontent, hmem, hincl, hstrip⟩
  decide

/-! ### Claim C2 -/

/-- Claim C2: a write whose local append succeeds (`ioFail = none`)
reports `success = true`; the returned result is identical whatever the
remote mirror outcome `o` turns out to be (the mirror call is dispatched
after the result is computed and never awaited), and the later deferred
mirror execution absorbs every outcome — delivery, callback error, or
throw — returning normally (`Except.ok`), so nothing is raised to the
caller. -/
theorem claim2_mirror_never_changes_write (level : LogLevel) (message : Str)
    (timestamp logFile : Option Str) (now : Str) (fs : Fs) (o o2 : RemoteOutcome) :
    (writeThenRemote level message timestamp logFile now none fs o).1.success = true ∧
    (writeThenRemote level message timestamp logFile now none fs o).1
      = (writeThenRemote level message timestamp logFile now none fs o2).1 ∧
    (writeThenRemote level message timestamp logFile now none fs o).2.2
      = [Except.ok ()] := by
  refine ⟨rfl, rfl, ?_⟩
  cases o <;> rfl

/-! ### Claim C3 -/

/-- Claim C3, as stated, is false on the code in two ways.  First, a
message containing a newline is accepted by the schema (`z.string().min(1)`
only checks length), and its write appends *two* lines, the second of
which does not have the `[<timestamp>] [<level>] <message>` shape.
Second, if the target file's existing content is not newline-terminated
(here `"abc"`), the appended entry merges into the preceding line and the
line count does not increase at all. -/
theorem claim3_counterexample :
    (logLines (((writeLogEntry .INFO (str "a\nb") (some (str "T")) none (str "N")
        none fsEmpty).2.1 DEFAULT_LOG_FILE).getD [])).length
      = (logLines ((fsEmpty DEFAULT_LOG_FILE).getD [])).length + 2 ∧
    (logLines (((writeLogEntry .INFO (str "x") (some (str "T")) none (str "N") none
          (fsSet fsEmpty DEFAULT_LOG_FILE (str "abc"))).2.1 DEFAULT_LOG_FILE).getD
        [])).length
      = (logLines (((fsSet fsEmpty DEFAULT_LOG_FILE (str "abc"))
          DEFAULT_LOG_FILE).getD [])).length := by
  decide

/-- Claim C3 amended: for every valid write (non-empty message, valid
level) whose message and resolved timestamp contain no newline, if the
target file's existing content is a sequence of newline-terminated
non-blank lines (in particular empty, or produced by earlier writes),
then the write succeeds and the file's line sequence grows by exactly the
one line `[<timestamp>] [<level>] <message>`. -/
theorem claim3_amended (level : LogLevel) (msg : Str) (ts logFile : Option Str)
    (now : Str) (fs : Fs) (prevLines : List Str)
    (_hmsg : msg ≠ []) (hmsgnl : '\n' ∉ msg)
    (htsnl : '\n' ∉ resolvedTimestamp ts now)
    (hprevnl : ∀ l ∈ prevLines, '\n' ∉ l)
    (hprevnb : ∀ l ∈ prevLines, trimJs l ≠ [])
    (hold : (fs (logFilePathOf logFile)).getD [] = joinLinesNl prevLines) :
    (writeLogEntry level msg ts logFile now none fs).1.success = true ∧
    logLines (((writeLogEntry level msg ts logFile now none fs).2.1
        (logFilePathOf logFile)).getD [])
      = logLines ((fs (logFilePathOf logFile)).getD [])
        ++ [fmtEntry (resolvedTimestamp ts now) level msg] := by
  refine ⟨rfl, ?_⟩
  rw [writeLogEntry_ok_fs, Option.getD_some, hold]
  have hnew : joinLinesNl prevLines
        ++ (fmtEntry (resolvedTimestamp ts now) level msg ++ ['\n'])
      = joinLinesNl (prevLines ++ [fmtEntry (resolvedTimestamp ts now) level msg]) := by
    rw [joinLinesNl_append]
    simp [joinLinesNl]
  have hA : ∀ l ∈ prevLines ++ [fmtEntry (resolvedTimestamp ts now) level msg],
      '\n' ∉ l := by
    intro l hl
    rcases List.mem_append.mp hl with h | h
    · exact hprevnl l h
    · rw [List.mem_singleton] at h
      subst h
      exact nl_not_mem_fmtEntry level htsnl hmsgnl
  have hB : ∀ l ∈ prevLines ++ [fmtEntry (resolvedTimestamp ts now) level msg],
      trimJs l ≠ [] := by
    intro l hl
    rcases List.mem_append.mp hl with h | h
    · exact hprevnb l h
    · rw [List.mem_singleton] at h
      subst h
      exact trimJs_fmtEntry_ne_nil _ _ _
  rw [hnew, logLines_joinLinesNl _ hA hB, logLines_joinLinesNl prevLines hprevnl hprevnb]

/-- Witness for C3: the amended theorem applied to a clean write onto the
empty file system. -/
theorem claim3_witness :
    (writeLogEntry .INFO (str "hello") (some (str "T")) none (str "N") none
        fsEmpty).1.success = true ∧
    logLines (((writeLogEntry .INFO (str "hello") (some (str "T")) none (str "N") none
        fsEmpty).2.1 DEFAULT_LOG_FILE).getD [])
      = [str "[T] [INFO] hello"] := by
  have h := claim3_amended .INFO (str "hello") (some (str "T")) none (str "N")
    fsEmpty [] (by decide) (by decide) (by decide)
    (by intro l hl; exact absurd hl (List.not_mem_nil l))
    (by intro l hl; exact absurd hl (List.not_mem_nil l)) (by rfl)
  refine ⟨h.1, ?_⟩
  rw [show logFilePathOf none = DEFAULT_LOG_FILE from rfl] at h
  rw [h.2]
  decide

/-! ### Claim C4 -/

/-- Claim C4, as stated, is false on the code in one respect: the spec's
pipeline (split, discard blanks, filter by containment, last `maxEntries`)
omits the final step the code performs, stripping ANSI color codes from
each returned entry.  On a file whose line carries a color escape the two
results differ. -/
theorem claim4_counterexample :
    (readLogEntries (fsSet fsEmpty DEFAULT_LOG_FILE (str "\x1b[31m[T] [INFO] red\n"))
        (10 : ℚ) none none).entries
      ≠ specReadPipeline (str "\x1b[31m[T] [INFO] red\n") (10 : ℚ) none := by
  decide

/-- Claim C4 amended: a read of an existing file returns exactly the
spec's pipeline — split into lines, discard blank lines, filter by
`[<level>]` containment, take the last `maxEntries` in original order —
with ANSI color codes additionally stripped from each returned entry.
In particular, after a batch of writes (of newline- and escape-free
messages and timestamps), a read with `maxEntries = k ≥ 1` returns
exactly the last `k` written entries in chronological order. -/
theorem claim4_amended :
    (∀ (fs : Fs) (q : ℚ) (lvl : Option LogLevel) (name : Option Str) (content : Str),
      fs (logFilePathOf name) = some content →
      readLogEntries fs q lvl name
        = ⟨(specReadPipeline content q lvl).map stripAnsiCodes, true, none⟩) ∧
    (∀ (ws : List (LogLevel × Str × Str)) (k : ℕ),
      1 ≤ k → ws ≠ [] →
      (∀ w ∈ ws, '\n' ∉ w.2.1 ∧ '\x1b' ∉ w.2.1 ∧ w.2.2 ≠ [] ∧ '\n' ∉ w.2.2 ∧
        '\x1b' ∉ w.2.2) →
      (readLogEntries (writeMany ws fsEmpty) ((k : ℕ) : ℚ) none none).entries
        = (ws.map (fun w => fmtEntry w.2.2 w.1 w.2.1)).drop (ws.length - k)) := by
  constructor
  · intro fs q lvl name content h
    simp only [readLogEntries, h, specReadPipeline]
  · intro ws k hk hne hclean
    have hContent := writeMany_default_some ws hne fsEmpty [] (by rfl)
    have hmapeq : ws.map fmtOfWrite = ws.map (fun w => fmtEntry w.2.2 w.1 w.2.1) := by
      apply List.map_congr_left
      intro w hw
      rcases hclean w hw with ⟨_, _, hts, _, _⟩
      simp [fmtOfWrite, resolvedTimestamp, hts]
    rw [List.nil_append, hmapeq] at hContent
    have hLn : ∀ l ∈ ws.map (fun w => fmtEntry w.2.2 w.1 w.2.1), '\n' ∉ l := by
      intro l hl
      rcases List.mem_map.mp hl with ⟨w, hw, hfmt⟩
      rcases hclean w hw with ⟨hm, _, _, ht, _⟩
      rw [← hfmt]
      exact nl_not_mem_fmtEntry _ ht hm
    have hLe : ∀ l ∈ ws.map (fun w => fmtEntry w.2.2 w.1 w.2.1), '\x1b' ∉ l := by
      intro l hl
      rcases List.mem_map.mp hl with ⟨w, hw, hfmt⟩
      rcases hclean w hw with ⟨_, hm, _, _, ht⟩
      rw [← hfmt]
      exact esc_not_mem_fmtEntry _ ht hm
    have hLb : ∀ l ∈ ws.map (fun w => fmtEntry w.2.2 w.1 w.2.1), trimJs l ≠ [] := by
      intro l hl
      rcases List.mem_map.mp hl with ⟨w, _, hfmt⟩
      rw [← hfmt]
      exact trimJs_fmtEntry_ne_nil _ _ _
    have hstep : readLogEntries (writeMany ws fsEmpty) ((k : ℕ) : ℚ) none none
        = ⟨(sliceLastJs ((k : ℕ) : ℚ)
            (logLines (joinLinesNl (ws.map (fun w => fmtEntry w.2.2 w.1 w.2.1))))).map
              stripAnsiCodes, true, none⟩ := by
      simp only [readLogEntries, logFilePathOf, hContent, filterLevel]
    rw [hstep]
    rw [logLines_joinLinesNl _ hLn hLb, sliceLastJs_natCast k hk]
    have hid : ((ws.map (fun w => fmtEntry w.2.2 w.1 w.2.1)).drop
          ((ws.map (fun w => fmtEntry w.2.2 w.1 w.2.1)).length - k)).map stripAnsiCodes
        = ((ws.map (fun w => fmtEntry w.2.2 w.1 w.2.1)).drop
          ((ws.map (fun w => fmtEntry w.2.2 w.1 w.2.1)).length - k)).map id := by
      apply List.map_congr_left
      intro a ha
      exact stripAnsiCodes_no_esc (hLe a (List.mem_of_mem_drop ha))
    rw [hid, List.map_id, List.length_map]

/-- Witness for C4: two writes followed by a read with `maxEntries = 1`
return exactly the second entry. -/
theorem claim4_witness :
    (readLogEntries
        (writeMany [(.INFO, str "a", str "T1"), (.WARN, str "b", str "T2")] fsEmpty)
        ((1 : ℕ) : ℚ) none none).entries
      = [str "[T2] [WARN] b"] := by
  have h := claim4_amended.2 [(.INFO, str "a", str "T1"), (.WARN, str "b", str "T2")]
    1 (by decide) (by decide) (by decide)
  rw [h]
  decide

/-! ### Claim C5 -/

/-- Claim C5: the caller-supplied `logFile` is resolved with
`path.resolve(LOG_DIR, logFile)`, so an absolute name ignores the base
directory entirely (the resolution is independent of the base), and for
the concrete name `/etc/passwd` both the write and the read operate on
the resolved path `/etc/passwd`, which is outside `LOG_DIR`. -/
theorem claim5_path_escape :
    (∀ (p : Str) (b b2 : List Str), isAbsoluteName p = true →
      resolvePath b p = resolvePath b2 p) ∧
    isAbsoluteName (str "/etc/passwd") = true ∧
    logFilePathOf (some (str "/etc/passwd")) = [str "etc", str "passwd"] ∧
    List.isPrefixOf LOG_DIR (logFilePathOf (some (str "/etc/passwd"))) = false ∧
    (writeLogEntry .INFO (str "m") (some (str "T")) (some (str "/etc/passwd"))
        (str "N") none fsEmpty).2.1 [str "etc", str "passwd"]
      = some (str "[T] [INFO] m\n") ∧
    readLogEntries ((writeLogEntry .INFO (str "m") (some (str "T"))
        (some (str "/etc/passwd")) (str "N") none fsEmpty).2.1) (10 : ℚ) none
        (some (str "/etc/passwd"))
      = ⟨[str "[T] [INFO] m"], true, none⟩ := by
  refine ⟨?_, by decide, by decide, by decide, by decide, by decide⟩
  intro p b b2 h
  simp [resolvePath, h]

/-- Witness for C5: the base-independence part applied at the absolute
name `/x` with two different base directories. -/
theorem claim5_witness :
    resolvePath [str "a"] (str "/x") = resolvePath [str "b", str "c"] (str "/x") :=
  claim5_path_escape.1 (str "/x") [str "a"] [str "b", str "c"] (by decide)

/-! ### Claim C6 -/

/-- Claim C6: a read whose target file does not exist returns
`success = false`, an empty entry list, and an error naming the missing
file; the embedded operation is a total function, reflecting that the
source returns this result from inside its `try` block rather than
throwing. -/
theorem claim6_missing_file (fs : Fs) (q : ℚ) (lvl : Option LogLevel)
    (name : Option Str) (h : fs (logFilePathOf name) = none) :
    readLogEntries fs q lvl name
      = ⟨[], false, some (str "Log file not found: " ++ pathToStr (logFilePathOf name))⟩ := by
  simp only [readLogEntries, h]

/-- Witness for C6: reading the default file from the empty file system. -/
theorem claim6_witness :
    readLogEntries fsEmpty (10 : ℚ) none none
      = ⟨[], false,
          some (str "Log file not found: /srv/mcp-logging/logs/application.log")⟩ := by
  rw [claim6_missing_file fsEmpty (10 : ℚ) none none rfl]
  decide

/-! ### Claim C7 -/

/-- Claim C7: a read of an existing file whose filtered set is empty
returns `success = true` with `entries = []`, and the protocol-level
handler renders this case as the fixed `No log entries found matching
criteria` message rather than an error. -/
theorem claim7_empty_filter (fs : Fs) (q : ℚ) (lvl : Option LogLevel)
    (name : Option Str) (content : Str)
    (hex : fs (logFilePathOf name) = some content)
    (hempty : filterLevel lvl (logLines content) = []) :
    readLogEntries fs q lvl name = ⟨[], true, none⟩ ∧
    (∀ a : RawReadArgs, parseReadLogsArguments a = .ok ⟨name, q, lvl⟩ →
      handleReadLogs a fs = .ok (str "No log entries found matching criteria")) := by
  constructor
  · simp only [readLogEntries, hex, hempty, sliceLastJs_nil, List.map_nil]
  · intro a hp
    simp only [handleReadLogs, hp, hex, hempty, sliceLastJs_nil]
    rfl

/-- Witness for C7: a file holding one `INFO` line read with an `ERROR`
filter. -/
theorem claim7_witness :
    readLogEntries (fsSet fsEmpty DEFAULT_LOG_FILE (str "[T] [INFO] hi\n")) (10 : ℚ)
        (some .ERROR) none = ⟨[], true, none⟩ ∧
    handleReadLogs ⟨none, some (10 : ℚ), some (str "ERROR")⟩
        (fsSet fsEmpty DEFAULT_LOG_FILE (str "[T] [INFO] hi\n"))
      = .ok (str "No log entries found matching criteria") := by
  have h := claim7_empty_filter
    (fsSet fsEmpty DEFAULT_LOG_FILE (str "[T] [INFO] hi\n")) (10 : ℚ) (some .ERROR)
    none (str "[T] [INFO] hi\n") (by decide) (by decide)
  exact ⟨h.1, h.2 ⟨none, some (10 : ℚ), some (str "ERROR")⟩ (by decide)⟩

/-! ### Claim C8 -/

/-- Claim C8, as stated, is false on the code in one respect: the schema
is `z.number().positive()`, which only requires strict positivity —
nothing rejects a non-integral `maxEntries`.  The positive non-integer
`5/2` passes validation unchanged. -/
theorem claim8_counterexample :
    parseReadLogsArguments ⟨none, some (mkRat 5 2), none⟩
      = .ok ⟨none, mkRat 5 2, none⟩ ∧
    (mkRat 5 2).isInt = false ∧ 0 < mkRat 5 2 := by
  decide

/-- Claim C8 amended: `maxEntries` must be a positive *number* (not
necessarily an integer) and defaults to 10 when omitted; a non-positive
`maxEntries` or an invalid `level` is rejected before execution with an
error enumerating the offending field paths and messages, and a rejected
request never touches the file system (the handler's answer is
independent of it). -/
theorem claim8_amended :
    (∀ f : Option Str, parseReadLogsArguments ⟨f, none, none⟩ = .ok ⟨f, 10, none⟩) ∧
    (∀ (f l : Option Str) (q : ℚ), q ≤ 0 →
      ∃ issues, parseReadLogsArguments ⟨f, some q, l⟩ = .error issues ∧
        (⟨str "maxEntries", str "Number must be greater than 0"⟩ : ZodIssue) ∈ issues) ∧
    (∀ (f : Option Str) (q : Option ℚ) (s : Str), decodeLevel s = none →
      ∃ issues, parseReadLogsArguments ⟨f, q, some s⟩ = .error issues ∧
        (⟨str "level", str "Invalid enum value"⟩ : ZodIssue) ∈ issues) ∧
    (∀ (a : RawReadArgs) (issues : List ZodIssue) (fs fs2 : Fs),
      parseReadLogsArguments a = .error issues →
      handleReadLogs a fs = .error (str "Invalid arguments: " ++ renderIssues issues) ∧
      handleReadLogs a fs = handleReadLogs a fs2) := by
  refine ⟨fun f => rfl, ?_, ?_, ?_⟩
  · intro f l q hq
    have hlt : ¬ 0 < q := not_lt.mpr hq
    cases l with
    | none =>
      refine ⟨[⟨str "maxEntries", str "Number must be greater than 0"⟩], ?_, ?_⟩
      · simp only [parseReadLogsArguments, if_neg hlt]
        rfl
      · exact List.mem_cons_self _ _
    | some s =>
      by_cases hs : (decodeLevel s).isSome
      · refine ⟨[⟨str "maxEntries", str "Number must be greater than 0"⟩], ?_, ?_⟩
        · simp only [parseReadLogsArguments, if_neg hlt, if_pos hs]
          rfl
        · exact List.mem_cons_self _ _
      · refine ⟨[⟨str "maxEntries", str "Number must be greater than 0"⟩,
          ⟨str "level", str "Invalid enum value"⟩], ?_, ?_⟩
        · simp only [parseReadLogsArguments, if_neg hlt, if_neg hs]
          rfl
        · exact List.mem_cons_self _ _
  · intro f q s hs
    have hs2 : ¬ (decodeLevel s).isSome = true := by
      rw [hs]
      simp
    cases q with
    | none =>
      refine ⟨[⟨str "level", str "Invalid enum value"⟩], ?_, List.mem_cons_self _ _⟩
      simp only [parseReadLogsArguments, if_neg hs2]
      rfl
    | some q2 =>
      by_cases hq : 0 < q2
      · refine ⟨[⟨str "level", str "Invalid enum value"⟩], ?_, List.mem_cons_self _ _⟩
        simp only [parseReadLogsArguments, if_pos hq, if_neg hs2]
        rfl
      · refine ⟨[⟨str "maxEntries", str "Number must be greater than 0"⟩,
          ⟨str "level", str "Invalid enum value"⟩], ?_, ?_⟩
        · simp only [parseReadLogsArguments, if_neg hq, if_neg hs2]
          rfl
        · exact List.mem_cons_of_mem _ (List.mem_cons_self _ _)
  · intro a issues fs fs2 hp
    constructor
    · simp only [handleReadLogs, hp]
    · simp only [handleReadLogs, hp]

/-- Witness for C8: the default, the rejection of `maxEntries = -1` with
its field path, and the rejected request's independence of the file
system. -/
theorem claim8_witness :
    parseReadLogsArguments ⟨none, none, none⟩ = .ok ⟨none, 10, none⟩ ∧
    handleReadLogs ⟨none, some (-1 : ℚ), none⟩ fsEmpty
      = .error (str "Invalid arguments: maxEntries: Number must be greater than 0") ∧
    handleReadLogs ⟨none, some (-1 : ℚ), none⟩ fsEmpty
      = handleReadLogs ⟨none, some (-1 : ℚ), none⟩
          (fsSet fsEmpty DEFAULT_LOG_FILE (str "x\n")) := by
  have h4 := claim8_amended.2.2.2 ⟨none, some (-1 : ℚ), none⟩
    [⟨str "maxEntries", str "Number must be greater than 0"⟩] fsEmpty
    (fsSet fsEmpty DEFAULT_LOG_FILE (str "x\n")) (by decide)
  refine ⟨claim8_amended.1 none, ?_, h4.2⟩
  rw [h4.1]
  decide

/-! ### Claim C9 -/

/-- Claim C9: an omitted `level` defaults to `INFO`
(`z.nativeEnum(LogLevel).default(LogLevel.INFO)`); an empty `message` is
rejected by `z.string().min(1)`; and with `timestamp` omitted the
appended entry is timestamped with `now`, the value of
`new Date().toISOString()` — the current time in ISO-8601 form. -/
theorem claim9_write_defaults :
    (∀ (m : Str) (ts f : Option Str), m ≠ [] →
      parseWriteLogArguments ⟨none, some m, ts, f⟩ = .ok ⟨.INFO, m, ts, f⟩) ∧
    parseWriteLogArguments ⟨none, some [], none, none⟩
      = .error [⟨str "message", str "String must contain at least 1 character(s)"⟩] ∧
    (∀ (lvl : LogLevel) (msg : Str) (f : Option Str) (now : Str) (fs : Fs),
      resolvedTimestamp none now = now ∧
      (writeLogEntry lvl msg none f now none fs).2.1 (logFilePathOf f)
        = some ((fs (logFilePathOf f)).getD [] ++ (fmtEntry now lvl msg ++ ['\n']))) := by
  refine ⟨?_, by decide, ?_⟩
  · intro m ts f hm
    match m with
    | [] => exact absurd rfl hm
    | c :: m2 => rfl
  · intro lvl msg f now fs
    exact ⟨rfl, writeLogEntry_ok_fs lvl msg none f now fs⟩

/-- Witness for C9: the level default at the message `hi`, and a
timestampless write landing with the `now` timestamp. -/
theorem claim9_witness :
    parseWriteLogArguments ⟨none, some (str "hi"), none, none⟩
      = .ok ⟨.INFO, str "hi", none, none⟩ ∧
    (writeLogEntry .WARN (str "m") none none (str "NOW") none fsEmpty).2.1
        DEFAULT_LOG_FILE = some (str "[NOW] [WARN] m\n") := by
  refine ⟨claim9_write_defaults.1 (str "hi") none none (by decide), ?_⟩
  have h := (claim9_write_defaults.2.2 .WARN (str "m") none (str "NOW") fsEmpty).2
  rw [show logFilePathOf none = DEFAULT_LOG_FILE from rfl] at h
  rw [h]
  decide

/-! ### Claim C10 -/

/-- Claim C10: when the local append succeeds, `writeLogEntry` reports
`graylogSuccess = true` unconditionally (the source returns the literal
`graylogSuccess: true` with the comment "Optimistically assume success
since we're not waiting"), and the whole result is independent of the
remote mirror's actual outcome, which only materializes after the result
is returned. -/
theorem claim10_graylog_success_unconditional (level : LogLevel) (message : Str)
    (timestamp logFile : Option Str) (now : Str) (fs : Fs) (o o2 : RemoteOutcome) :
    (writeThenRemote level message timestamp logFile now none fs o).1.graylogSuccess
      = some true ∧
    (writeThenRemote level message timestamp logFile now none fs o).1
      = (writeThenRemote level message timestamp logFile now none fs o2).1 :=
  ⟨rfl, rfl⟩

end McpLogging
